import Mathlib

/-!
Verification development for the Ghostwriter event-buffering and
signal-gated insight pipeline.  The definitions below are shallow
embeddings of the JavaScript sources:

* `GeminiClient.*`  — src/llm/geminiClient.js (response parsing, JSON scraping)
* `RateLimiter.*`   — src/llm/rateLimiter.js
* `SignalGate.*`    — src/services/signalGate.js
* `Notifier.*`      — src/slack/notifier.js
* `HybridBufferAnalyzer.*` — hybridBufferAnalyzer.js (dual-trigger buffer)
* `SummaryCompressor.*` — src/services/summaryCompressor.js

JavaScript numbers are modelled as exact fractions (`JsNum`, compared by
cross-multiplication, which is exact on the decimal values involved) and
as `Int` for millisecond timestamps.  `JSON.parse` is an external builtin; it is
modelled by a recursive-descent parser for the JSON fragment actually
exchanged with the model (objects, strings, booleans, null, decimal
numbers without exponents; arrays and \u escapes are rejected, which only
makes the "parse failure" branch larger).
-/

set_option maxHeartbeats 1000000
set_option maxRecDepth 4000

/-- Backtick character (code fences), by code point. -/
def btick : Char := Char.ofNat 96

/-- Whitespace as treated by JS `trim` / the `\s` regex class (ASCII part). -/
def isJWs (c : Char) : Bool :=
  c = ' ' || c = '\n' || c = '\t' || c = '\r' || c = Char.ofNat 12 || c = Char.ofNat 11

/-- JS `String.prototype.trim` on a character list. -/
def jsTrim (l : List Char) : List Char :=
  ((l.dropWhile isJWs).reverse.dropWhile isJWs).reverse

/-- JS `Array.prototype.slice(-n)` : the last `n` elements. -/
def lastN {α : Type} (n : Nat) (l : List α) : List α :=
  l.drop (l.length - n)

/-- Number value: an exact fraction `num / den` (`den` intended positive).
Comparisons are by cross-multiplication, so they agree with the exact
rational order; this models JS numeric comparison on the decimal values
the pipeline handles. -/
structure JsNum where
  num : Int
  den : Nat
deriving DecidableEq, Repr

/-- Strict order on `JsNum` fractions. -/
def JsNum.lt (a b : JsNum) : Bool :=
  decide (a.num * (b.den : Int) < b.num * (a.den : Int))

/-- Non-strict order on `JsNum` fractions. -/
def JsNum.le (a b : JsNum) : Bool :=
  decide (a.num * (b.den : Int) ≤ b.num * (a.den : Int))

/-- Embed an integer. -/
def JsNum.ofInt (n : Int) : JsNum := ⟨n, 1⟩

/-- Embed a natural number. -/
def JsNum.ofNat (n : Nat) : JsNum := ⟨(n : Int), 1⟩

/-- Exact division of fractions (used only where the divisor is positive;
a zero divisor yields denominator 0, and the guards in the embedded code
short-circuit those cases exactly as the JS source does). -/
def JsNum.div (a b : JsNum) : JsNum :=
  if 0 ≤ b.num then ⟨a.num * (b.den : Int), a.den * b.num.toNat⟩
  else ⟨-(a.num * (b.den : Int)), a.den * (-b.num).toNat⟩

/-- Maximum of two fractions (JS `Math.max`). -/
def JsNum.max (a b : JsNum) : JsNum :=
  if JsNum.lt a b then b else a

/-- JSON values (fragment used by the model responses; no arrays). -/
inductive Json where
  | null : Json
  | bool : Bool → Json
  | num : JsNum → Json
  | str : String → Json
  | obj : List (String × Json) → Json

/-- Digit list to natural number. -/
def digitsToNat (ds : List Char) : Nat :=
  ds.foldl (fun a c => a * 10 + (c.toNat - 48)) 0

/-- Parse a JSON string body (after the opening quote). -/
def parseJString : List Char → Option (String × List Char)
  | [] => none
  | c :: rest =>
    if c = '"' then some ("", rest)
    else if c = '\\' then
      match rest with
      | e :: r2 =>
        let esc : Option Char :=
          if e = '"' then some '"'
          else if e = '\\' then some '\\'
          else if e = '/' then some '/'
          else if e = 'n' then some '\n'
          else if e = 't' then some '\t'
          else if e = 'r' then some '\r'
          else if e = 'b' then some (Char.ofNat 8)
          else if e = 'f' then some (Char.ofNat 12)
          else none
        match esc with
        | some ch => (parseJString r2).map (fun p => (String.mk (ch :: p.1.data), p.2))
        | none => none
      | [] => none
    else (parseJString rest).map (fun p => (String.mk (c :: p.1.data), p.2))

/-- Parse a JSON number (decimal, optional sign and fraction; no exponent). -/
def parseJNum (l : List Char) : Option (JsNum × List Char) :=
  let p := match l with
    | c :: r => if c = '-' then (true, r) else (false, l)
    | [] => (false, l)
  let neg := p.1
  let l1 := p.2
  let ip := l1.takeWhile Char.isDigit
  let l2 := l1.dropWhile Char.isDigit
  if ip.isEmpty then none
  else
    match l2 with
    | c :: r =>
      if c = '.' then
        let fr := r.takeWhile Char.isDigit
        let l3 := r.dropWhile Char.isDigit
        if fr.isEmpty then none
        else
          let m : Int := (digitsToNat ip : Int) * (10 ^ fr.length : Nat) + (digitsToNat fr : Int)
          some (⟨if neg then -m else m, 10 ^ fr.length⟩, l3)
      else
        some (⟨if neg then -(digitsToNat ip : Int) else (digitsToNat ip : Int), 1⟩, l2)
    | [] => some (⟨if neg then -(digitsToNat ip : Int) else (digitsToNat ip : Int), 1⟩, [])

mutual

/-- Parse one JSON value (fuel-indexed recursive descent). -/
def parseJVal : Nat → List Char → Option (Json × List Char)
  | 0, _ => none
  | fu + 1, l =>
    match l.dropWhile isJWs with
    | [] => none
    | c :: rest =>
      if c = '{' then
        match rest.dropWhile isJWs with
        | d :: r2 =>
          if d = '}' then some (.obj [], r2)
          else (parseJFields fu rest).map (fun p => (Json.obj p.1, p.2))
        | [] => none
      else if c = '"' then (parseJString rest).map (fun p => (Json.str p.1, p.2))
      else if c = 't' then
        match rest with
        | 'r' :: 'u' :: 'e' :: r => some (.bool true, r)
        | _ => none
      else if c = 'f' then
        match rest with
        | 'a' :: 'l' :: 's' :: 'e' :: r => some (.bool false, r)
        | _ => none
      else if c = 'n' then
        match rest with
        | 'u' :: 'l' :: 'l' :: r => some (.null, r)
        | _ => none
      else (parseJNum (c :: rest)).map (fun p => (Json.num p.1, p.2))

/-- Parse the members of a JSON object (after the opening brace). -/
def parseJFields : Nat → List Char → Option (List (String × Json) × List Char)
  | 0, _ => none
  | fu + 1, l =>
    match l.dropWhile isJWs with
    | c :: rest =>
      if c = '"' then
        match parseJString rest with
        | some (k, r1) =>
          match r1.dropWhile isJWs with
          | d :: r2 =>
            if d = ':' then
              match parseJVal fu r2 with
              | some (v, r3) =>
                match r3.dropWhile isJWs with
                | e :: r4 =>
                  if e = ',' then (parseJFields fu r4).map (fun p => ((k, v) :: p.1, p.2))
                  else if e = '}' then some ([(k, v)], r4)
                  else none
                | [] => none
              | none => none
            else none
          | [] => none
        | none => none
      else none
    | [] => none

end

/-- Model of the external `JSON.parse` (on the supported fragment). -/
def jsonParse (s : String) : Option Json :=
  match parseJVal (s.length + 1) s.data with
  | some (v, rest) => if (rest.dropWhile isJWs).isEmpty then some v else none
  | none => none

/-- Property access `data.k` on a parsed JSON value; duplicate keys resolve
to the last occurrence, as in `JSON.parse`. -/
def jsGetField (j : Json) (k : String) : Option Json :=
  match j with
  | .obj fields => (fields.reverse.find? (fun p => p.1 = k)).map (·.2)
  | _ => none

/-- JS truthiness of a JSON value. -/
def jsTruthy : Json → Bool
  | .null => false
  | .bool b => b
  | .num q => decide (q.num ≠ 0)
  | .str s => decide (s.length ≠ 0)
  | .obj _ => true

/-- JS truthiness of a possibly-missing (`undefined`) value. -/
def jsTruthyOpt : Option Json → Bool
  | some v => jsTruthy v
  | none => false

/-- JS test `v.length < n`: only strings have a numeric `length` here;
on other values `undefined < n` is `false`. -/
def jsLenLt (o : Option Json) (n : Nat) : Bool :=
  match o with
  | some (.str s) => decide (s.length < n)
  | _ => false

/-- JS `v || d` on a possibly-missing value. -/
def jsOrD (o : Option Json) (d : Json) : Json :=
  match o with
  | some v => if jsTruthy v then v else d
  | none => d

/-! Code-fence stripping, as performed by the regex replaces in
`geminiClient.js`. -/

theorem dropWhile_len_le {α : Type} (p : α → Bool) (l : List α) :
    (l.dropWhile p).length ≤ l.length := by
  induction l with
  | nil => simp [List.dropWhile]
  | cons a t ih =>
    rw [List.dropWhile]
    cases p a
    · simp
    · exact Nat.le_succ_of_le ih

/-- Fuel-indexed scan for the global replace of `/```json\s*/gi`
(extractJSON, line 1036). -/
def stripCIAux : Nat → List Char → List Char
  | 0, l => l
  | _ + 1, [] => []
  | fu + 1, a :: b :: c :: d :: e :: f :: g :: r2 =>
    if a = btick ∧ b = btick ∧ c = btick ∧ d.toLower = 'j' ∧ e.toLower = 's'
        ∧ f.toLower = 'o' ∧ g.toLower = 'n' then
      stripCIAux fu (r2.dropWhile isJWs)
    else a :: stripCIAux fu (b :: c :: d :: e :: f :: g :: r2)
  | fu + 1, a :: rest => a :: stripCIAux fu rest

/-- Global replace of `/```json\s*/gi` (extractJSON, line 1036). -/
def stripJsonFenceCI (l : List Char) : List Char :=
  stripCIAux l.length l

/-- Fuel-indexed scan for the global replace of `/```\s*/g`
(extractJSON, line 1036). -/
def stripWsAux : Nat → List Char → List Char
  | 0, l => l
  | _ + 1, [] => []
  | fu + 1, a :: b :: c :: r2 =>
    if a = btick ∧ b = btick ∧ c = btick then
      stripWsAux fu (r2.dropWhile isJWs)
    else a :: stripWsAux fu (b :: c :: r2)
  | fu + 1, a :: rest => a :: stripWsAux fu rest

/-- Global replace of `/```\s*/g` (extractJSON, line 1036). -/
def stripFenceWs (l : List Char) : List Char :=
  stripWsAux l.length l

/-- Fuel-indexed scan for the global replace of `/```json\n?/g`
(parseInsightResponse, line 158). -/
def stripJsonNLAux : Nat → List Char → List Char
  | 0, l => l
  | _ + 1, [] => []
  | fu + 1, a :: b :: c :: d :: e :: f :: g :: r2 =>
    if a = btick ∧ b = btick ∧ c = btick ∧ d = 'j' ∧ e = 's' ∧ f = 'o' ∧ g = 'n' then
      match r2 with
      | nl :: r3 => if nl = '\n' then stripJsonNLAux fu r3 else stripJsonNLAux fu (nl :: r3)
      | [] => []
    else a :: stripJsonNLAux fu (b :: c :: d :: e :: f :: g :: r2)
  | fu + 1, a :: rest => a :: stripJsonNLAux fu rest

/-- Global replace of `/```json\n?/g` (parseInsightResponse, line 158). -/
def stripJsonFenceNL (l : List Char) : List Char :=
  stripJsonNLAux l.length l

/-- Fuel-indexed scan for the global replace of `/```\n?/g`
(parseInsightResponse, line 158). -/
def stripNLAux : Nat → List Char → List Char
  | 0, l => l
  | _ + 1, [] => []
  | fu + 1, a :: b :: c :: r2 =>
    if a = btick ∧ b = btick ∧ c = btick then
      match r2 with
      | nl :: r3 => if nl = '\n' then stripNLAux fu r3 else stripNLAux fu (nl :: r3)
      | [] => []
    else a :: stripNLAux fu (b :: c :: r2)
  | fu + 1, a :: rest => a :: stripNLAux fu rest

/-- Global replace of `/```\n?/g` (parseInsightResponse, line 158). -/
def stripFenceNL (l : List Char) : List Char :=
  stripNLAux l.length l

/-- Match of the greedy regex `/\x7b[\s\S]*\x7d/` : the span from the first
opening brace to the last closing brace, when the latter is not earlier. -/
def braceSpanGreedy (l : List Char) : Option (List Char) :=
  match l.findIdx? (fun c => c = '{') with
  | none => none
  | some i =>
    match l.reverse.findIdx? (fun c => c = '}') with
    | none => none
    | some k =>
      let j := l.length - 1 - k
      if i ≤ j then some ((l.drop i).take (j - i + 1)) else none

/-- Brace-counting scan from `extractJSON` (lines 1045-1056): offset of the
position where the count returns to zero. -/
def balancedEnd : List Char → Int → Nat → Option Nat
  | [], _, _ => none
  | c :: rest, cnt, pos =>
    let cnt1 : Int := if c = '{' then cnt + 1 else if c = '}' then cnt - 1 else cnt
    if cnt1 = 0 then some pos else balancedEnd rest cnt1 (pos + 1)

/-- GeminiClient.extractJSON (geminiClient.js lines 1031-1071): trim, strip
code fences, take the first balanced brace-delimited span, `JSON.parse` it.
`none` means the fallback value is returned. -/
def GeminiClient.extractJSON (response : String) : Option Json :=
  let t := jsTrim response.data
  let t1 := stripFenceWs (stripJsonFenceCI t)
  match t1.findIdx? (fun c => c = '{') with
  | none => none
  | some start =>
    match balancedEnd (t1.drop start) 0 0 with
    | none => none
    | some off => jsonParse (String.mk ((t1.drop start).take (off + 1)))

/-- Result shape of `scoutAnalyze` (worthy / topic / summary). -/
structure ScoutResult where
  worthy : Bool
  topic : Json
  summary : Json

/-- GeminiClient.scoutAnalyze response handling (geminiClient.js lines
883-938): extractJSON with fallback `\x7bworthy: false, topic: '', summary: ''\x7d`,
then `worthy === true` and `|| ''` coercions. -/
def GeminiClient.scoutAnalyze (response : String) : ScoutResult :=
  match GeminiClient.extractJSON response with
  | none => { worthy := false, topic := .str "", summary := .str "" }
  | some j =>
    { worthy := match jsGetField j "worthy" with
        | some (.bool true) => true
        | _ => false
      topic := jsOrD (jsGetField j "topic") (.str "")
      summary := jsOrD (jsGetField j "summary") (.str "") }

/-- Result of `parseInsightResponse`. -/
structure InsightResult where
  isPostWorthy : Bool
  confidence : JsNum
  coreInsight : Json
  suggestedAngle : Json
  reasoning : Json

/-- Fallback returned by `parseInsightResponse` when parsing or validation
throws (geminiClient.js lines 204-215); the error text is abstracted. -/
def insightFallback : InsightResult :=
  { isPostWorthy := false
    confidence := ⟨0, 1⟩
    coreInsight := .str "Error parsing response"
    suggestedAngle := .str "N/A"
    reasoning := .str "JSON parse error" }

/-- String extraction step of `parseInsightResponse` (lines 155-166): trim,
strip code fences, greedy first-brace-to-last-brace match (falling back to
the whole string), `JSON.parse`. -/
def GeminiClient.insightExtract (response : String) : Option Json :=
  let t := jsTrim response.data
  let t1 := stripFenceNL (stripJsonFenceNL t)
  let t2 := match braceSpanGreedy t1 with
    | some sub => sub
    | none => t1
  jsonParse (String.mk t2)

/-- Validation and policy enforcement of `parseInsightResponse` (lines
168-203); `none` models a thrown validation error. -/
def GeminiClient.validateInsight (threshold : JsNum) (j : Json) : Option InsightResult :=
  match jsGetField j "isPostWorthy" with
  | some (.bool b0) =>
    match jsGetField j "confidence" with
    | some (.num c) =>
      if JsNum.lt c ⟨0, 1⟩ || JsNum.lt ⟨1, 1⟩ c then none
      else
        let b1 := if JsNum.lt c threshold then false else b0
        let core := jsGetField j "coreInsight"
        let b2 := if !jsTruthyOpt core || jsLenLt core 10 then false else b1
        let ang := jsGetField j "suggestedAngle"
        let b3 := if !jsTruthyOpt ang || jsLenLt ang 20 then false else b2
        some { isPostWorthy := b3
               confidence := c
               coreInsight := jsOrD core (.str "N/A")
               suggestedAngle := jsOrD ang (.str "N/A")
               reasoning := jsOrD (jsGetField j "reasoning") (.str "N/A") }
    | _ => none
  | _ => none

/-- GeminiClient.parseInsightResponse (geminiClient.js lines 152-216). -/
def GeminiClient.parseInsightResponse (threshold : JsNum) (response : String) : InsightResult :=
  match GeminiClient.insightExtract response with
  | some j => (GeminiClient.validateInsight threshold j).getD insightFallback
  | none => insightFallback

/-! SignalGate — src/services/signalGate.js.  Pure evaluation over a
conversation snapshot; `Date.now()` is passed explicitly as `now`. -/

/-- Volume thresholds (config.js lines 6-11, defaults). -/
structure VolumeCfg where
  minMessages : Nat
  minParticipants : Nat
  minAvgWords : JsNum
  minTotalWords : Nat

/-- Temporal thresholds (config.js lines 12-18, defaults). -/
structure TemporalCfg where
  minDurationMinutes : JsNum
  maxDurationHours : JsNum
  minVelocityMsgPerHour : JsNum
  maxVelocityMsgPerHour : JsNum
  minAgeMinutes : JsNum

/-- Engagement threshold (config.js lines 19-21). -/
structure EngagementCfg where
  minBackAndForthRatio : JsNum

/-- Quality thresholds (config.js lines 22-25). -/
structure QualityCfg where
  requiresQuestion : Bool
  minUniquenessRatio : JsNum

/-- The `config.signalGate` record. -/
structure SignalGateCfg where
  volume : VolumeCfg
  temporal : TemporalCfg
  engagement : EngagementCfg
  quality : QualityCfg

/-- Default thresholds from config.js (no env overrides). -/
def defaultSignalGateCfg : SignalGateCfg :=
  { volume := { minMessages := 8, minParticipants := 2, minAvgWords := ⟨15, 1⟩, minTotalWords := 120 }
    temporal := { minDurationMinutes := ⟨5, 1⟩, maxDurationHours := ⟨6, 1⟩
                  minVelocityMsgPerHour := ⟨1, 1⟩, maxVelocityMsgPerHour := ⟨10, 1⟩
                  minAgeMinutes := ⟨5, 1⟩ }
    engagement := { minBackAndForthRatio := ⟨25, 100⟩ }
    quality := { requiresQuestion := true, minUniquenessRatio := ⟨4, 10⟩ } }

/-- Conversation snapshot fields read by the gate (timestamps in ms). -/
structure ConversationState where
  message_count : Nat
  participant_ids : List String
  total_word_count : Nat
  window_started_at : Int
  last_activity : Int
  rolling_summary : Option String

/-- SignalGate.checkVolumeRules (signalGate.js lines 11-22). -/
def SignalGate.checkVolumeRules (cfg : SignalGateCfg) (state : ConversationState) : Bool :=
  let c := cfg.volume
  let messageCheck := decide (c.minMessages ≤ state.message_count)
  let participantCheck := decide (c.minParticipants ≤ state.participant_ids.length)
  let avgWordsCheck := decide (0 < state.message_count)
      && JsNum.le c.minAvgWords
           (JsNum.div (JsNum.ofNat state.total_word_count) (JsNum.ofNat state.message_count))
  let totalWordsCheck := decide (c.minTotalWords ≤ state.total_word_count)
  messageCheck && participantCheck && avgWordsCheck && totalWordsCheck

/-- SignalGate.checkTemporalRules (signalGate.js lines 27-61). -/
def SignalGate.checkTemporalRules (cfg : SignalGateCfg) (now : Int) (state : ConversationState) : Bool :=
  let c := cfg.temporal
  let durationMs : Int := state.last_activity - state.window_started_at
  let durationMinutes : JsNum := JsNum.div ⟨durationMs, 1⟩ ⟨60000, 1⟩
  let durationHours : JsNum := JsNum.div durationMinutes ⟨60, 1⟩
  if JsNum.lt durationMinutes c.minDurationMinutes then false
  else if JsNum.lt c.maxDurationHours durationHours then false
  else
    let msgPerHour := JsNum.div (JsNum.ofNat state.message_count) (JsNum.max durationHours ⟨1, 10⟩)
    if JsNum.lt msgPerHour c.minVelocityMsgPerHour
        || JsNum.lt c.maxVelocityMsgPerHour msgPerHour then false
    else
      let ageMinutes : JsNum := JsNum.div ⟨now - state.window_started_at, 1⟩ ⟨60000, 1⟩
      if JsNum.lt ageMinutes c.minAgeMinutes then false
      else true

/-- SignalGate.checkEngagementRules (signalGate.js lines 66-80). -/
def SignalGate.checkEngagementRules (cfg : SignalGateCfg) (state : ConversationState) : Bool :=
  let c := cfg.engagement
  let participantCount := state.participant_ids.length
  let messageCount := state.message_count
  if participantCount = 0 ∨ messageCount = 0 then false
  else
    JsNum.le c.minBackAndForthRatio
      (JsNum.div (JsNum.ofNat participantCount) (JsNum.ofNat messageCount))

/-- JS `split(/\s+/)` on a character list (fuel-indexed scan). -/
def jsSplitWsAux : Nat → List Char → List Char → List String
  | 0, acc, _ => [String.mk acc.reverse]
  | _ + 1, acc, [] => [String.mk acc.reverse]
  | fu + 1, acc, c :: rest =>
    if isJWs c then String.mk acc.reverse :: jsSplitWsAux fu [] (rest.dropWhile isJWs)
    else jsSplitWsAux fu (c :: acc) rest

/-- JS `s.split(/\s+/)`. -/
def jsSplitWs (l : List Char) : List String :=
  jsSplitWsAux l.length [] l

/-- Size of `new Set(words)` : the number of distinct strings. -/
def dedupCount : List String → List String → Nat
  | [], _ => 0
  | x :: rest, seen =>
    if seen.contains x then dedupCount rest seen else 1 + dedupCount rest (x :: seen)

/-- SignalGate.checkContentQuality (signalGate.js lines 85-107). -/
def SignalGate.checkContentQuality (cfg : SignalGateCfg) (state : ConversationState) : Bool :=
  let c := cfg.quality
  let summary := state.rolling_summary.getD ""
  if c.requiresQuestion && !(summary.data.contains '?') then false
  else if 0 < summary.length then
    let words := jsSplitWs (summary.data.map Char.toLower)
    let uniqueWords := dedupCount words []
    if JsNum.lt (JsNum.div (JsNum.ofNat uniqueWords) (JsNum.ofNat words.length))
        c.minUniquenessRatio then false
    else true
  else true

/-- SignalGate.passes (signalGate.js lines 144-164). -/
def SignalGate.passes (cfg : SignalGateCfg) (now : Int) (state : ConversationState) : Bool :=
  SignalGate.checkVolumeRules cfg state
    && SignalGate.checkTemporalRules cfg now state
    && SignalGate.checkEngagementRules cfg state
    && SignalGate.checkContentQuality cfg state

/-! Notifier — src/slack/notifier.js.  The Slack post, the repository
`markAsNotified` and the notification-record insert are externals; the
model returns the delivery result, the post-state of the conversation's
`notified` flag, and the number of messages delivered. -/

/-- Conversation fields read by the notifier. -/
structure NotifierConversation where
  notified : Bool

/-- Insight fields read by the notifier. -/
structure NotifierInsight where
  is_post_worthy : Bool

/-- Return value of `notify`. -/
structure DeliveryResult where
  success : Bool
  reason : Option String
  dryRun : Option Bool
  recipientCount : Option Nat
deriving DecidableEq, Repr

/-- Outcome: either a thrown error or a returned result. -/
inductive NotifyOutcome where
  | thrown : NotifyOutcome
  | result : DeliveryResult → NotifyOutcome
deriving DecidableEq, Repr

/-- Notifier.notify (notifier.js lines 116-187): client guard, idempotency
check on `conversation.notified`, worthiness check, dry-run short-circuit,
then delivery + `markAsNotified` + notification record (one delivery). -/
def Notifier.notify (hasClient dryRunMode : Bool) (insight : NotifierInsight)
    (conversation : NotifierConversation) : NotifyOutcome × NotifierConversation × Nat :=
  if !hasClient then (.thrown, conversation, 0)
  else if conversation.notified then
    (.result { success := false, reason := some "already_notified", dryRun := none
               recipientCount := none }, conversation, 0)
  else if !insight.is_post_worthy then
    (.result { success := false, reason := some "not_post_worthy", dryRun := none
               recipientCount := none }, conversation, 0)
  else if dryRunMode then
    (.result { success := true, reason := none, dryRun := some true
               recipientCount := none }, conversation, 0)
  else
    (.result { success := true, reason := none, dryRun := some false
               recipientCount := some 1 }, { conversation with notified := true }, 1)

/-! SummaryCompressor — summaryCompressor.js.  The Gemini call is an
external; its outcome is passed in as `llmResult` (`none` = the call
failed after its own retries).  The DB update and the pending-buffer
clear are modelled in the returned pair (updated conversation, whether
the pending buffer was cleared). -/

/-- Conversation fields read by the compressor. -/
structure CompressorConversation where
  rolling_summary : Option String
  summary_version : Option Nat
deriving DecidableEq, Repr

/-- Pending buffer as returned by `conversationManager.getPendingBuffer`. -/
structure PendingBuffer where
  buffer : String
  count : Nat
  wordCount : Nat

/-- JS `(v || d)` on an optional number (`0` and `null` are falsy). -/
def jsOrNat (v : Option Nat) (d : Nat) : Nat :=
  match v with
  | some n => if n = 0 then d else n
  | none => d

/-- JS `s.split('\n')` on a string. -/
def splitLinesAux : List Char → List Char → List String
  | acc, [] => [String.mk acc.reverse]
  | acc, c :: rest =>
    if c = '\n' then String.mk acc.reverse :: splitLinesAux [] rest
    else splitLinesAux (c :: acc) rest

/-- JS `s.split('\n')`. -/
def splitLines (s : String) : List String :=
  splitLinesAux [] s.data

/-- JS `lines.join('\n')`. -/
def joinNL : List String → String
  | [] => ""
  | [s] => s
  | s :: rest => s ++ "\n" ++ joinNL rest

/-- SummaryCompressor.emergencyCompress (summaryCompressor.js lines
385-413): keep the last 10 lines longer than 50 characters and append
them to the existing summary; `none` models the early `return null` for
an empty pending buffer. -/
def SummaryCompressor.emergencyCompress (conversation : CompressorConversation)
    (buf : Option PendingBuffer) : Option (CompressorConversation × Bool) :=
  match buf with
  | none => none
  | some b =>
    if b.count = 0 then none
    else
      let lines := (splitLines b.buffer).filter (fun line => 50 < line.length)
      let truncated := joinNL (lastN 10 lines)
      let emergencySummary :=
        match conversation.rolling_summary with
        | some s =>
          if s.length ≠ 0 then s ++ "\n\n[Recent messages]: " ++ truncated else truncated
        | none => truncated
      some ({ rolling_summary := some emergencySummary
              summary_version := some (jsOrNat conversation.summary_version 1 + 1) }, true)

/-- SummaryCompressor.compressConversation (summaryCompressor.js lines
307-380): feature-flag and empty-buffer short circuits, the Gemini
compression on success, and the emergency fallback on failure.  The
boolean records whether the pending buffer was cleared. -/
def SummaryCompressor.compressConversation (enableSummaryCompression : Bool)
    (llmResult : Option String) (conversation : CompressorConversation)
    (buf : Option PendingBuffer) : Option (CompressorConversation × Bool) :=
  if !enableSummaryCompression then some (conversation, false)
  else
    match buf with
    | none => some (conversation, false)
    | some b =>
      if b.count = 0 then some (conversation, false)
      else
        match llmResult with
        | some compressedSummary =>
          some ({ rolling_summary := some compressedSummary
                  summary_version := some (jsOrNat conversation.summary_version 1 + 1) }, true)
        | none => SummaryCompressor.emergencyCompress conversation buf

/-! RateLimiter — rateLimiter.js.  `Date.now()` is passed explicitly;
`getNextDayTimestamp` (local-midnight computation via `Date`) is an
external clock function, abstracted as `nextDay`. -/

/-- Constructor arguments plus the abstracted next-midnight function. -/
structure RLCfg where
  maxRequestsPerMinute : Nat
  maxRequestsPerDay : Nat
  nextDay : Int → Int

/-- Mutable state of a `RateLimiter` instance. -/
structure RLState where
  requestTimestamps : List Int
  dailyCount : Nat
  dailyResetTime : Int
deriving DecidableEq, Repr

/-- RateLimiter.checkDailyReset (rateLimiter.js lines 32-39). -/
def RateLimiter.checkDailyReset (cfg : RLCfg) (now : Int) (st : RLState) : RLState :=
  if st.dailyResetTime ≤ now then
    { st with dailyCount := 0, dailyResetTime := cfg.nextDay now }
  else st

/-- RateLimiter.cleanOldTimestamps (rateLimiter.js lines 44-48). -/
def RateLimiter.cleanOldTimestamps (now : Int) (st : RLState) : RLState :=
  { st with requestTimestamps := st.requestTimestamps.filter (fun ts => now - 60000 < ts) }

/-- Result of one `attempt()` call: success, or the thrown `RateLimitError`
with its `retryAfterMs`. -/
inductive RLResult where
  | ok : RLResult
  | rateLimited : Int → RLResult
deriving DecidableEq, Repr

/-- Whether an attempt succeeded. -/
def RLResult.isOk : RLResult → Bool
  | .ok => true
  | .rateLimited _ => false

/-- RateLimiter.getRetryAfterMs (rateLimiter.js lines 73-89); the local
`cleanOldTimestamps` result is written out at each use site. -/
def RateLimiter.getRetryAfterMs (cfg : RLCfg) (now : Int) (st : RLState) : Int × RLState :=
  if cfg.maxRequestsPerMinute ≤ (RateLimiter.cleanOldTimestamps now st).requestTimestamps.length then
    (max ((RateLimiter.cleanOldTimestamps now st).requestTimestamps.headD 0 + 60000 - now) 1000,
      RateLimiter.cleanOldTimestamps now st)
  else if cfg.maxRequestsPerDay ≤ (RateLimiter.cleanOldTimestamps now st).dailyCount then
    ((RateLimiter.cleanOldTimestamps now st).dailyResetTime - now,
      RateLimiter.cleanOldTimestamps now st)
  else (0, RateLimiter.cleanOldTimestamps now st)

/-- RateLimiter.attempt (rateLimiter.js lines 103-121): `canMakeRequest`
(daily reset, window cleaning, both limit checks) then either
`recordRequest` or a thrown `RateLimitError` with `getRetryAfterMs`. -/
def RateLimiter.attempt (cfg : RLCfg) (now : Int) (st : RLState) : RLState × RLResult :=
  let st1 := RateLimiter.cleanOldTimestamps now (RateLimiter.checkDailyReset cfg now st)
  if cfg.maxRequestsPerMinute ≤ st1.requestTimestamps.length
      ∨ cfg.maxRequestsPerDay ≤ st1.dailyCount then
    let r := RateLimiter.getRetryAfterMs cfg now st1
    (r.2, .rateLimited r.1)
  else
    ({ st1 with requestTimestamps := st1.requestTimestamps ++ [now]
                dailyCount := st1.dailyCount + 1 }, .ok)

/-- Run a sequence of `attempt()` calls at the given clock times. -/
def RateLimiter.run (cfg : RLCfg) (st : RLState) : List Int → RLState × List RLResult
  | [] => (st, [])
  | t :: rest =>
    let p := RateLimiter.attempt cfg t st
    let q := RateLimiter.run cfg p.1 rest
    (q.1, p.2 :: q.2)

/-- Times of the successful attempts in a run. -/
def succTimes (ts : List Int) (rs : List RLResult) : List Int :=
  ((ts.zip rs).filter (fun p => p.2.isOk)).map (fun p => p.1)

/-! HybridBufferAnalyzer — hybridBufferAnalyzer.js.  The per-key buffer
(Redis value or local-map fallback) and the per-key silence timer are the
state; the AI pipeline invocation is recorded as a trigger event carrying
the batch it receives.  Times are in ms. -/

/-- Constructor configuration (config.js lines 77-81). -/
structure BufCfg where
  maxBatchSize : Nat
  silenceTimeoutMs : Int
  overlapSize : Nat

/-- Defaults: 100-message cap, 180 s quiet period, 20-message overlap. -/
def defaultBufCfg : BufCfg :=
  { maxBatchSize := 100, silenceTimeoutMs := 180000, overlapSize := 20 }

/-- One raw buffered event. -/
structure BufMsg where
  isBot : Bool
  userId : String
  text : String
  time : Int
deriving DecidableEq, Repr

/-- The two window-closing triggers (`'max_cap'` / `'silence'`). -/
inductive TriggerType where
  | max_cap : TriggerType
  | silence : TriggerType
deriving DecidableEq, Repr

/-- A pipeline invocation: trigger type, firing time, batch handed over. -/
structure Trig where
  ttype : TriggerType
  time : Int
  batch : List BufMsg
deriving DecidableEq, Repr

/-- Per-key state: the stored window and the armed silence timer
(deadline), if any. -/
structure BufState where
  msgs : List BufMsg
  timer : Option Int
deriving DecidableEq, Repr

/-- HybridBufferAnalyzer.processBatch (config.js lines 1393-1424): read
the buffer, skip when empty, otherwise truncate to the overlap tail
(volume) or clear (silence) and hand the full batch to the pipeline. -/
def HybridBufferAnalyzer.processBatch (cfg : BufCfg) (st : BufState)
    (triggerType : TriggerType) (now : Int) : BufState × Option Trig :=
  let batchToAnalyze := st.msgs
  if batchToAnalyze.isEmpty then (st, none)
  else
    match triggerType with
    | .max_cap =>
      ({ st with msgs := lastN cfg.overlapSize batchToAnalyze },
        some { ttype := .max_cap, time := now, batch := batchToAnalyze })
    | .silence =>
      ({ st with msgs := [] },
        some { ttype := .silence, time := now, batch := batchToAnalyze })

/-- HybridBufferAnalyzer.processMessage (config.js lines 1320-1383): skip
bot events, append to the window, fire the volume trigger at the cap
(cancelling the silence timer), otherwise debounce-restart the silence
timer. -/
def HybridBufferAnalyzer.processMessage (cfg : BufCfg) (st : BufState)
    (m : BufMsg) : BufState × Option Trig :=
  if m.isBot then (st, none)
  else
    let st1 : BufState := { st with msgs := st.msgs ++ [m] }
    if cfg.maxBatchSize ≤ st1.msgs.length then
      HybridBufferAnalyzer.processBatch cfg { st1 with timer := none } .max_cap m.time
    else
      ({ st1 with timer := some (m.time + cfg.silenceTimeoutMs) }, none)

/-- The silence timer callback (config.js lines 1367-1371): delete the
timer, then process the batch as a silence trigger at the deadline. -/
def HybridBufferAnalyzer.fireSilence (cfg : BufCfg) (st : BufState) (d : Int) :
    BufState × Option Trig :=
  HybridBufferAnalyzer.processBatch cfg { st with timer := none } .silence d

/-- Deliver an event to the analyzer at its arrival time: any armed timer
whose deadline has passed fires first, then the event is ingested. -/
def HybridBufferAnalyzer.stepEvent (cfg : BufCfg) (st : BufState) (m : BufMsg) :
    BufState × List Trig :=
  match st.timer with
  | some d =>
    if d ≤ m.time then
      let p := HybridBufferAnalyzer.fireSilence cfg st d
      let q := HybridBufferAnalyzer.processMessage cfg p.1 m
      (q.1, p.2.toList ++ q.2.toList)
    else
      let q := HybridBufferAnalyzer.processMessage cfg st m
      (q.1, q.2.toList)
  | none =>
    let q := HybridBufferAnalyzer.processMessage cfg st m
    (q.1, q.2.toList)

/-- Run a sequence of timed events through the analyzer. -/
def HybridBufferAnalyzer.runEvents (cfg : BufCfg) (st : BufState) :
    List BufMsg → BufState × List Trig
  | [] => (st, [])
  | m :: rest =>
    let p := HybridBufferAnalyzer.stepEvent cfg st m
    let q := HybridBufferAnalyzer.runEvents cfg p.1 rest
    (q.1, p.2 ++ q.2)

/-- After the last event: an armed timer eventually fires. -/
def HybridBufferAnalyzer.flushTimer (cfg : BufCfg) (st : BufState) :
    BufState × List Trig :=
  match st.timer with
  | some d =>
    let p := HybridBufferAnalyzer.fireSilence cfg st d
    (p.1, p.2.toList)
  | none => (st, [])

/-- Whole run from an empty window: deliver all events, then let any
pending silence timer fire. -/
def HybridBufferAnalyzer.runAll (cfg : BufCfg) (es : List BufMsg) :
    BufState × List Trig :=
  let p := HybridBufferAnalyzer.runEvents cfg { msgs := [], timer := none } es
  let q := HybridBufferAnalyzer.flushTimer cfg p.1
  (q.1, p.2 ++ q.2)

/-! Claim theorems. -/

theorem validateInsight_conf_lt {thr : JsNum} {j : Json} {r : InsightResult}
    (hV : GeminiClient.validateInsight thr j = some r)
    (h : JsNum.lt r.confidence thr = true) : r.isPostWorthy = false := by
  unfold GeminiClient.validateInsight at hV
  split at hV
  · split at hV
    · split at hV
      · exact absurd hV (by simp)
      · rcases Option.some.inj hV with rfl
        simp only at h ⊢
        rw [h]
        simp
    · exact absurd hV (by simp)
  · exact absurd hV (by simp)

/-- C5: a parsed worthiness result whose reported confidence is below the
configured threshold always has `isPostWorthy = false`, whatever the model
claimed. -/
theorem confidence_below_threshold_not_worthy (threshold : JsNum) (response : String)
    (h : JsNum.lt (GeminiClient.parseInsightResponse threshold response).confidence threshold = true) :
    (GeminiClient.parseInsightResponse threshold response).isPostWorthy = false := by
  unfold GeminiClient.parseInsightResponse at h ⊢
  cases hE : GeminiClient.insightExtract response with
  | none =>
    simp only [hE] at h ⊢
    rfl
  | some j =>
    simp only [hE] at h ⊢
    cases hV : GeminiClient.validateInsight threshold j with
    | none =>
      rfl
    | some r =>
      simp only [hV, Option.getD_some] at h ⊢
      exact validateInsight_conf_lt hV h

theorem confidence_below_threshold_not_worthy_witness :
    JsNum.lt (GeminiClient.parseInsightResponse ⟨7, 10⟩
        "\x7b\"isPostWorthy\": true, \"confidence\": 0.5, \"coreInsight\": \"a core insight here\", \"suggestedAngle\": \"a sufficiently long suggested angle\"\x7d").confidence ⟨7, 10⟩ = true
    ∧ (GeminiClient.parseInsightResponse ⟨7, 10⟩
        "\x7b\"isPostWorthy\": true, \"confidence\": 0.5, \"coreInsight\": \"a core insight here\", \"suggestedAngle\": \"a sufficiently long suggested angle\"\x7d").isPostWorthy = false :=
  ⟨rfl, confidence_below_threshold_not_worthy ⟨7, 10⟩ _ rfl⟩

theorem validateInsight_content {thr : JsNum} {j : Json} {r : InsightResult}
    (hV : GeminiClient.validateInsight thr j = some r)
    (h : (!jsTruthyOpt (jsGetField j "coreInsight") || jsLenLt (jsGetField j "coreInsight") 10) = true
       ∨ (!jsTruthyOpt (jsGetField j "suggestedAngle") || jsLenLt (jsGetField j "suggestedAngle") 20) = true) :
    r.isPostWorthy = false := by
  unfold GeminiClient.validateInsight at hV
  split at hV
  · split at hV
    · split at hV
      · exact absurd hV (by simp)
      · rcases Option.some.inj hV with rfl
        simp only
        rcases h with h | h
        · rw [h]
          simp
        · rw [h]
          simp
    · exact absurd hV (by simp)
  · exact absurd hV (by simp)

/-- C10: even when the model claims worthiness with confidence at or above
the threshold, `parseInsightResponse` forces `isPostWorthy = false`
whenever `coreInsight` is missing/falsy or shorter than 10 characters, or
`suggestedAngle` is missing/falsy or shorter than 20 characters. -/
theorem content_validation_forces_not_worthy (threshold : JsNum) (response : String) (j : Json)
    (hE : GeminiClient.insightExtract response = some j)
    (h : (!jsTruthyOpt (jsGetField j "coreInsight") || jsLenLt (jsGetField j "coreInsight") 10) = true
       ∨ (!jsTruthyOpt (jsGetField j "suggestedAngle") || jsLenLt (jsGetField j "suggestedAngle") 20) = true) :
    (GeminiClient.parseInsightResponse threshold response).isPostWorthy = false := by
  unfold GeminiClient.parseInsightResponse
  simp only [hE]
  cases hV : GeminiClient.validateInsight threshold j with
  | none => rfl
  | some r =>
    simp only [hV, Option.getD_some]
    exact validateInsight_content hV h

theorem content_validation_forces_not_worthy_witness :
    (GeminiClient.parseInsightResponse ⟨7, 10⟩
      "\x7b\"isPostWorthy\": true, \"confidence\": 0.9, \"coreInsight\": \"short\", \"suggestedAngle\": \"a sufficiently long suggested angle\"\x7d").isPostWorthy = false :=
  content_validation_forces_not_worthy ⟨7, 10⟩ _
    (Json.obj [("isPostWorthy", Json.bool true), ("confidence", Json.num ⟨9, 10⟩),
      ("coreInsight", Json.str "short"), ("suggestedAngle", Json.str "a sufficiently long suggested angle")])
    rfl (Or.inl rfl)

/-- C6: the scout parser extracts the first balanced brace-delimited JSON
object, ignoring surrounding prose (witnessed on the spec's example), and
whenever no object can be extracted and parsed it returns the conservative
not-worthy result instead of propagating an error. -/
theorem scout_extracts_and_falls_back_conservatively :
    (GeminiClient.scoutAnalyze "Sure! \x7b\"worthy\": true, \"topic\": \"X\"\x7d thanks" =
      { worthy := true, topic := .str "X", summary := .str "" })
    ∧ ∀ response : String, GeminiClient.extractJSON response = none →
        GeminiClient.scoutAnalyze response =
          { worthy := false, topic := .str "", summary := .str "" } := by
  refine ⟨rfl, fun response h => ?_⟩
  unfold GeminiClient.scoutAnalyze
  rw [h]

theorem scout_extracts_and_falls_back_conservatively_witness :
    GeminiClient.scoutAnalyze "model overloaded, try again later" =
      { worthy := false, topic := .str "", summary := .str "" } :=
  scout_extracts_and_falls_back_conservatively.2 "model overloaded, try again later" rfl

/-- C1: when `conversation.notified` is already true, `Notifier.notify`
returns the `already_notified` result (not an error), delivers nothing and
leaves the conversation unchanged; and two successive `notify` calls on
the same conversation deliver at most one message in total. -/
theorem notify_already_notified_and_at_most_once
    (dr1 dr2 : Bool) (i1 i2 : NotifierInsight) (conversation : NotifierConversation)
    (h : conversation.notified = true) :
    Notifier.notify true dr1 i1 conversation =
      (.result { success := false, reason := some "already_notified", dryRun := none
                 recipientCount := none }, conversation, 0)
    ∧ ∀ c0 : NotifierConversation,
        (Notifier.notify true dr1 i1 c0).2.2 +
          (Notifier.notify true dr2 i2 (Notifier.notify true dr1 i1 c0).2.1).2.2 ≤ 1 := by
  constructor
  · simp [Notifier.notify, h]
  · intro c0
    by_cases hn : c0.notified <;> by_cases hw : i1.is_post_worthy <;> by_cases hd : dr1 <;>
      simp [Notifier.notify, hn, hw, hd] <;> split_ifs <;> simp

theorem notify_already_notified_and_at_most_once_witness :
    Notifier.notify true false ⟨true⟩ ⟨true⟩ =
      (.result { success := false, reason := some "already_notified", dryRun := none
                 recipientCount := none }, ⟨true⟩, 0) :=
  (notify_already_notified_and_at_most_once false false ⟨true⟩ ⟨true⟩ ⟨true⟩ rfl).1

/-- C3: a silence trigger on a non-empty window hands the full window to
the pipeline and clears the stored window completely. -/
theorem silence_trigger_full_batch_then_empty (cfg : BufCfg) (st : BufState) (d : Int)
    (h : st.msgs ≠ []) :
    HybridBufferAnalyzer.fireSilence cfg st d =
      ({ msgs := [], timer := none },
        some { ttype := .silence, time := d, batch := st.msgs }) := by
  simp [HybridBufferAnalyzer.fireSilence, HybridBufferAnalyzer.processBatch, h]

theorem silence_trigger_full_batch_then_empty_witness :
    HybridBufferAnalyzer.fireSilence defaultBufCfg
        { msgs := [{ isBot := false, userId := "u1", text := "hello", time := 0 }], timer := some 180000 }
        180000 =
      ({ msgs := [], timer := none },
        some { ttype := .silence, time := 180000
               batch := [{ isBot := false, userId := "u1", text := "hello", time := 0 }] }) :=
  silence_trigger_full_batch_then_empty defaultBufCfg _ 180000 (by decide)

/-- C8: when the generative compression fails, `compressConversation`
falls back to the deterministic emergency compression: the pending buffer
is filtered to lines longer than 50 characters, the last 10 of them are
appended to the existing rolling summary, the summary version is
incremented, and the pending buffer is cleared. -/
theorem compress_failure_emergency_fallback (conversation : CompressorConversation)
    (b : PendingBuffer) (hcnt : b.count ≠ 0) :
    SummaryCompressor.compressConversation true none conversation (some b) =
      some ({ rolling_summary := some (
                match conversation.rolling_summary with
                | some s =>
                  if s.length ≠ 0 then
                    s ++ "\n\n[Recent messages]: " ++
                      joinNL (lastN 10 ((splitLines b.buffer).filter (fun line => 50 < line.length)))
                  else
                    joinNL (lastN 10 ((splitLines b.buffer).filter (fun line => 50 < line.length)))
                | none =>
                  joinNL (lastN 10 ((splitLines b.buffer).filter (fun line => 50 < line.length))))
              summary_version := some (jsOrNat conversation.summary_version 1 + 1) }, true) := by
  unfold SummaryCompressor.compressConversation SummaryCompressor.emergencyCompress
  simp [hcnt]

/-- C8 witness helper computation is direct; see the witness below. -/
theorem compress_failure_emergency_fallback_witness :
    SummaryCompressor.compressConversation true none
        { rolling_summary := some "old summary", summary_version := some 3 }
        (some { buffer := "short line\nthis first line is definitely longer than fifty characters in total\nthis second line is also comfortably longer than fifty characters"
                count := 3, wordCount := 25 }) =
      some ({ rolling_summary := some ("old summary" ++ "\n\n[Recent messages]: " ++
                "this first line is definitely longer than fifty characters in total\nthis second line is also comfortably longer than fifty characters")
              summary_version := some 4 }, true) := by
  have h := compress_failure_emergency_fallback
    { rolling_summary := some "old summary", summary_version := some 3 }
    { buffer := "short line\nthis first line is definitely longer than fifty characters in total\nthis second line is also comfortably longer than fifty characters"
      count := 3, wordCount := 25 } (by decide)
  exact h

/-- Unfolding lemma for `runEvents` on a cons cell. -/
theorem runEvents_cons (cfg : BufCfg) (st : BufState) (m : BufMsg) (tail : List BufMsg) :
    HybridBufferAnalyzer.runEvents cfg st (m :: tail) =
      ((HybridBufferAnalyzer.runEvents cfg (HybridBufferAnalyzer.stepEvent cfg st m).1 tail).1,
        (HybridBufferAnalyzer.stepEvent cfg st m).2 ++
          (HybridBufferAnalyzer.runEvents cfg (HybridBufferAnalyzer.stepEvent cfg st m).1 tail).2) :=
  rfl

/-- Unfolding lemma for `runEvents` on the empty list. -/
theorem runEvents_nil (cfg : BufCfg) (st : BufState) :
    HybridBufferAnalyzer.runEvents cfg st [] = (st, []) := rfl

/-- A step below the cap, arriving before any pending deadline, appends
the event and re-arms the timer without firing anything. -/
theorem stepEvent_quiet (cfg : BufCfg) (st : BufState) (m : BufMsg)
    (hmbot : m.isBot = false)
    (hstart : ∀ d, st.timer = some d → m.time < d)
    (hlen : st.msgs.length + 1 < cfg.maxBatchSize) :
    HybridBufferAnalyzer.stepEvent cfg st m =
      ({ msgs := st.msgs ++ [m], timer := some (m.time + cfg.silenceTimeoutMs) }, []) := by
  have hnotvol : ¬ cfg.maxBatchSize ≤ st.msgs.length + 1 := by
    omega
  cases ht : st.timer with
  | none =>
    simp [HybridBufferAnalyzer.stepEvent, HybridBufferAnalyzer.processMessage, hmbot, hnotvol, ht]
  | some d =>
    have hd : m.time < d := hstart d ht
    simp [HybridBufferAnalyzer.stepEvent, HybridBufferAnalyzer.processMessage, hmbot, hnotvol,
      ht, not_le.mpr hd]

/-- Quiet run: below the volume cap and with every event arriving before
the pending silence deadline, each ingest just appends and re-arms the
debounced timer; no trigger fires. -/
theorem runEvents_quiet (cfg : BufCfg) :
    ∀ (rest : List BufMsg) (m : BufMsg) (st : BufState),
      (∀ x ∈ m :: rest, x.isBot = false) →
      List.Chain' (fun a b => b.time < a.time + cfg.silenceTimeoutMs) (m :: rest) →
      (∀ d, st.timer = some d → m.time < d) →
      st.msgs.length + rest.length + 1 < cfg.maxBatchSize →
      HybridBufferAnalyzer.runEvents cfg st (m :: rest) =
        ({ msgs := st.msgs ++ m :: rest
           timer := some ((rest.getLastD m).time + cfg.silenceTimeoutMs) }, []) := by
  intro rest
  induction rest with
  | nil =>
    intro m st hbot _ hstart hlen
    have hstep := stepEvent_quiet cfg st m (hbot m (List.mem_cons_self m []))
      hstart (by simp at hlen; omega)
    have hstep1 : (HybridBufferAnalyzer.stepEvent cfg st m).1 =
        { msgs := st.msgs ++ [m], timer := some (m.time + cfg.silenceTimeoutMs) } := by
      rw [hstep]
    have hstep2 : (HybridBufferAnalyzer.stepEvent cfg st m).2 = [] := by
      rw [hstep]
    rw [runEvents_cons, hstep1, hstep2, runEvents_nil]
    simp
  | cons r rs ih =>
    intro m st hbot hchain hstart hlen
    have hstep := stepEvent_quiet cfg st m (hbot m (List.mem_cons_self m (r :: rs)))
      hstart (by simp at hlen ⊢; omega)
    have hstep1 : (HybridBufferAnalyzer.stepEvent cfg st m).1 =
        { msgs := st.msgs ++ [m], timer := some (m.time + cfg.silenceTimeoutMs) } := by
      rw [hstep]
    have hstep2 : (HybridBufferAnalyzer.stepEvent cfg st m).2 = [] := by
      rw [hstep]
    have hchain' := List.chain'_cons'.mp hchain
    have hrec := ih r { msgs := st.msgs ++ [m], timer := some (m.time + cfg.silenceTimeoutMs) }
      (fun x hx => hbot x (List.mem_cons_of_mem m hx))
      hchain'.2
      (by
        intro d hd
        rcases Option.some.inj hd with rfl
        exact hchain'.1 r rfl)
      (by
        simp at hlen ⊢
        omega)
    rw [runEvents_cons, hstep1, hstep2, hrec]
    simp [List.getLastD_cons, List.getLast?_cons]

/-- Splitting a run at an append. -/
theorem runEvents_append (cfg : BufCfg) (l1 l2 : List BufMsg) :
    ∀ st : BufState,
      HybridBufferAnalyzer.runEvents cfg st (l1 ++ l2) =
        ((HybridBufferAnalyzer.runEvents cfg (HybridBufferAnalyzer.runEvents cfg st l1).1 l2).1,
          (HybridBufferAnalyzer.runEvents cfg st l1).2 ++
            (HybridBufferAnalyzer.runEvents cfg (HybridBufferAnalyzer.runEvents cfg st l1).1 l2).2) := by
  induction l1 with
  | nil => intro st; simp [runEvents_nil]
  | cons a t ih =>
    intro st
    rw [List.cons_append, runEvents_cons, ih, runEvents_cons]
    simp [List.append_assoc]

/-- C9: events below the volume cap whose inter-arrival gaps are all
shorter than the quiet period produce exactly one silence trigger, firing
one quiet period after the last event, with the full window as batch, and
leave the window empty; the debounced timer is single-flight throughout. -/
theorem debounce_exactly_one_silence_trigger (cfg : BufCfg) (m0 : BufMsg) (rest : List BufMsg)
    (hbot : ∀ x ∈ m0 :: rest, x.isBot = false)
    (hchain : List.Chain' (fun a b => b.time < a.time + cfg.silenceTimeoutMs) (m0 :: rest))
    (hlen : rest.length + 1 < cfg.maxBatchSize) :
    HybridBufferAnalyzer.runAll cfg (m0 :: rest) =
      ({ msgs := [], timer := none },
        [{ ttype := .silence, time := (rest.getLastD m0).time + cfg.silenceTimeoutMs
           batch := m0 :: rest }]) := by
  unfold HybridBufferAnalyzer.runAll
  rw [runEvents_quiet cfg rest m0 { msgs := [], timer := none } hbot hchain
    (by intro d hd; cases hd) (by simpa using hlen)]
  simp [HybridBufferAnalyzer.flushTimer, HybridBufferAnalyzer.fireSilence,
    HybridBufferAnalyzer.processBatch]

theorem debounce_exactly_one_silence_trigger_witness :
    HybridBufferAnalyzer.runAll defaultBufCfg
        [{ isBot := false, userId := "u1", text := "a", time := 0 },
         { isBot := false, userId := "u2", text := "b", time := 1000 }] =
      ({ msgs := [], timer := none },
        [{ ttype := .silence, time := 181000
           batch := [{ isBot := false, userId := "u1", text := "a", time := 0 },
                     { isBot := false, userId := "u2", text := "b", time := 1000 }] }]) := by
  have h := debounce_exactly_one_silence_trigger defaultBufCfg
    { isBot := false, userId := "u1", text := "a", time := 0 }
    [{ isBot := false, userId := "u2", text := "b", time := 1000 }]
    (by decide)
    (List.chain'_cons.mpr ⟨by decide, List.chain'_singleton _⟩)
    (by decide)
  exact h

/-- C2: when the window reaches the volume cap, the volume trigger fires
exactly once, at the capping event, with the full pre-trigger window; the
stored window afterwards is exactly the last `overlapSize` events of that
window, in order, and no trigger fires before the capping event. -/
theorem volume_trigger_once_full_window_overlap (cfg : BufCfg) (front : List BufMsg) (mV : BufMsg)
    (hbot : ∀ x ∈ front ++ [mV], x.isBot = false)
    (hchain : List.Chain' (fun a b => b.time < a.time + cfg.silenceTimeoutMs) (front ++ [mV]))
    (hlen : (front ++ [mV]).length = cfg.maxBatchSize) :
    HybridBufferAnalyzer.runAll cfg (front ++ [mV]) =
      ({ msgs := lastN cfg.overlapSize (front ++ [mV]), timer := none },
        [{ ttype := .max_cap, time := mV.time, batch := front ++ [mV] }])
    ∧ (HybridBufferAnalyzer.runEvents cfg { msgs := [], timer := none } front).2 = [] := by
  have hmv : mV.isBot = false := hbot mV (by simp)
  cases front with
  | nil =>
    constructor
    · have hcap : cfg.maxBatchSize ≤ 1 := by simp at hlen; omega
      unfold HybridBufferAnalyzer.runAll
      rw [List.nil_append, runEvents_cons]
      simp [HybridBufferAnalyzer.stepEvent, HybridBufferAnalyzer.processMessage,
        HybridBufferAnalyzer.processBatch, hmv, hcap, runEvents_nil,
        HybridBufferAnalyzer.flushTimer]
    · rfl
  | cons f0 fr =>
    have hsplit := List.chain'_append.mp hchain
    have hquiet := runEvents_quiet cfg fr f0 { msgs := [], timer := none }
      (fun x hx => hbot x (List.mem_append_left _ hx))
      hsplit.1
      (by intro d hd; cases hd)
      (by simp at hlen ⊢; omega)
    have hmvlt : mV.time < (fr.getLast?.getD f0).time + cfg.silenceTimeoutMs := by
      have := hsplit.2.2 (fr.getLast?.getD f0)
        (by simp [List.getLast?_cons]) mV rfl
      exact this
    have hcap : cfg.maxBatchSize ≤ fr.length + 1 + 1 := by
      simp at hlen ⊢
      omega
    constructor
    · unfold HybridBufferAnalyzer.runAll
      rw [runEvents_append, hquiet]
      rw [runEvents_cons]
      simp only [List.nil_append]
      have hstep : HybridBufferAnalyzer.stepEvent cfg
          { msgs := f0 :: fr, timer := some ((fr.getLastD f0).time + cfg.silenceTimeoutMs) } mV =
          ({ msgs := lastN cfg.overlapSize ((f0 :: fr) ++ [mV]), timer := none },
            [{ ttype := .max_cap, time := mV.time, batch := (f0 :: fr) ++ [mV] }]) := by
        simp [HybridBufferAnalyzer.stepEvent, HybridBufferAnalyzer.processMessage,
          HybridBufferAnalyzer.processBatch, hmv, hcap, not_le.mpr hmvlt]
      rw [hstep]
      simp [runEvents_nil, HybridBufferAnalyzer.flushTimer]
    · rw [hquiet]

theorem volume_trigger_once_full_window_overlap_witness :
    HybridBufferAnalyzer.runAll { maxBatchSize := 3, silenceTimeoutMs := 180000, overlapSize := 2 }
        [{ isBot := false, userId := "u1", text := "a", time := 0 },
         { isBot := false, userId := "u2", text := "b", time := 1000 },
         { isBot := false, userId := "u1", text := "c", time := 2000 }] =
      ({ msgs := [{ isBot := false, userId := "u2", text := "b", time := 1000 },
                  { isBot := false, userId := "u1", text := "c", time := 2000 }], timer := none },
        [{ ttype := .max_cap, time := 2000
           batch := [{ isBot := false, userId := "u1", text := "a", time := 0 },
                     { isBot := false, userId := "u2", text := "b", time := 1000 },
                     { isBot := false, userId := "u1", text := "c", time := 2000 }] }]) := by
  have h := volume_trigger_once_full_window_overlap
    { maxBatchSize := 3, silenceTimeoutMs := 180000, overlapSize := 2 }
    [{ isBot := false, userId := "u1", text := "a", time := 0 },
     { isBot := false, userId := "u2", text := "b", time := 1000 }]
    { isBot := false, userId := "u1", text := "c", time := 2000 }
    (by decide)
    (List.chain'_cons.mpr ⟨by decide, List.chain'_cons.mpr ⟨by decide, List.chain'_singleton _⟩⟩)
    (by decide)
  exact h.1

/-- C7 counterexample: with the default thresholds the gate is not
monotone under message-count growth — a snapshot that passes stops
passing when only the message count (and, compatibly, the word count)
grows, because the velocity ceiling and the engagement ratio degrade. -/
theorem gate_not_monotone_counterexample :
    SignalGate.passes defaultSignalGateCfg 3600000
        { message_count := 8, participant_ids := ["u1", "u2"], total_word_count := 120
          window_started_at := 0, last_activity := 3600000
          rolling_summary := some "should we pivot to enterprise customers?" } = true
    ∧ (8 : Nat) ≤ 16
    ∧ SignalGate.passes defaultSignalGateCfg 3600000
        { message_count := 16, participant_ids := ["u1", "u2"], total_word_count := 240
          window_started_at := 0, last_activity := 3600000
          rolling_summary := some "should we pivot to enterprise customers?" } = false := by
  refine ⟨?_, by omega, ?_⟩ <;> decide

theorem jsNum_le_div_nat_mono (a : JsNum) (w1 w2 m : Nat) (hw : w1 ≤ w2)
    (h : JsNum.le a (JsNum.div (JsNum.ofNat w1) (JsNum.ofNat m)) = true) :
    JsNum.le a (JsNum.div (JsNum.ofNat w2) (JsNum.ofNat m)) = true := by
  simp [JsNum.le, JsNum.div, JsNum.ofNat] at h ⊢
  calc a.num * (m : Int)
      ≤ (w1 : Int) * a.den := h
    _ ≤ (w2 : Int) * a.den := by
        have hle : (w1 : Int) ≤ (w2 : Int) := Int.ofNat_le.mpr hw
        nlinarith [Int.natCast_nonneg a.den]

/-- C7 (amended): once the gate passes, it keeps passing for any snapshot
with the same message count, equal-or-greater participant and word
counts, and the same summary and timestamps; monotonicity under
message-count growth is refuted by the counterexample. -/
theorem gate_monotone_participants_words (cfg : SignalGateCfg) (now : Int)
    (s1 s2 : ConversationState)
    (hm : s2.message_count = s1.message_count)
    (hp : s1.participant_ids.length ≤ s2.participant_ids.length)
    (hw : s1.total_word_count ≤ s2.total_word_count)
    (hws : s2.window_started_at = s1.window_started_at)
    (hla : s2.last_activity = s1.last_activity)
    (hsum : s2.rolling_summary = s1.rolling_summary)
    (h : SignalGate.passes cfg now s1 = true) :
    SignalGate.passes cfg now s2 = true := by
  unfold SignalGate.passes at h ⊢
  simp only [Bool.and_eq_true] at h ⊢
  obtain ⟨⟨⟨hvol, htemp⟩, heng⟩, hqual⟩ := h
  refine ⟨⟨⟨?_, ?_⟩, ?_⟩, ?_⟩
  · -- volume rules
    unfold SignalGate.checkVolumeRules at hvol ⊢
    simp only [Bool.and_eq_true, decide_eq_true_eq] at hvol ⊢
    obtain ⟨⟨⟨h1, h2⟩, h3⟩, h4⟩ := hvol
    refine ⟨⟨⟨by omega, by omega⟩, ?_⟩, by omega⟩
    rcases h3 with ⟨h3a, h3b⟩
    exact ⟨by omega, by rw [hm]; exact jsNum_le_div_nat_mono _ _ _ _ hw h3b⟩
  · -- temporal rules: all inputs unchanged
    rw [show SignalGate.checkTemporalRules cfg now s2 = SignalGate.checkTemporalRules cfg now s1 by
      unfold SignalGate.checkTemporalRules
      rw [hws, hla, hm]]
    exact htemp
  · -- engagement rules
    unfold SignalGate.checkEngagementRules at heng ⊢
    simp only at heng ⊢
    split at heng
    · exact absurd heng (by simp)
    · rename_i hguard
      have hp1 : s1.participant_ids.length ≠ 0 := fun hc => hguard (Or.inl hc)
      have hm1 : s1.message_count ≠ 0 := fun hc => hguard (Or.inr hc)
      split
      · rename_i hguard2
        rcases hguard2 with hc | hc
        · omega
        · rw [hm] at hc
          exact absurd hc hm1
      · rw [hm]
        exact jsNum_le_div_nat_mono _ _ _ _ hp heng
  · -- quality rules: summary unchanged
    rw [show SignalGate.checkContentQuality cfg s2 = SignalGate.checkContentQuality cfg s1 by
      unfold SignalGate.checkContentQuality
      rw [hsum]]
    exact hqual

theorem gate_monotone_participants_words_witness :
    SignalGate.passes defaultSignalGateCfg 3600000
      { message_count := 8, participant_ids := ["u1", "u2", "u3"], total_word_count := 130
        window_started_at := 0, last_activity := 3600000
        rolling_summary := some "should we pivot to enterprise customers?" } = true :=
  gate_monotone_participants_words defaultSignalGateCfg 3600000
    { message_count := 8, participant_ids := ["u1", "u2"], total_word_count := 120
      window_started_at := 0, last_activity := 3600000
      rolling_summary := some "should we pivot to enterprise customers?" }
    { message_count := 8, participant_ids := ["u1", "u2", "u3"], total_word_count := 130
      window_started_at := 0, last_activity := 3600000
      rolling_summary := some "should we pivot to enterprise customers?" }
    rfl (by decide) (by decide) rfl rfl rfl (by decide)

/-! Rate limiter run lemmas. -/

theorem rlRun_nil (cfg : RLCfg) (st : RLState) : RateLimiter.run cfg st [] = (st, []) := rfl

theorem rlRun_cons (cfg : RLCfg) (st : RLState) (t : Int) (ts : List Int) :
    RateLimiter.run cfg st (t :: ts) =
      ((RateLimiter.run cfg (RateLimiter.attempt cfg t st).1 ts).1,
        (RateLimiter.attempt cfg t st).2 ::
          (RateLimiter.run cfg (RateLimiter.attempt cfg t st).1 ts).2) :=
  rfl

theorem rlRun_append (cfg : RLCfg) (l1 l2 : List Int) :
    ∀ st : RLState,
      RateLimiter.run cfg st (l1 ++ l2) =
        ((RateLimiter.run cfg (RateLimiter.run cfg st l1).1 l2).1,
          (RateLimiter.run cfg st l1).2 ++
            (RateLimiter.run cfg (RateLimiter.run cfg st l1).1 l2).2) := by
  induction l1 with
  | nil => intro st; simp [rlRun_nil]
  | cons a t ih =>
    intro st
    rw [List.cons_append, rlRun_cons, ih, rlRun_cons]
    simp

theorem rlRun_length (cfg : RLCfg) : ∀ (ts : List Int) (st : RLState),
    (RateLimiter.run cfg st ts).2.length = ts.length := by
  intro ts
  induction ts with
  | nil => intro st; rfl
  | cons t rest ih => intro st; rw [rlRun_cons]; simp [ih]

theorem succTimes_nil (rs : List RLResult) : succTimes [] rs = [] := rfl

theorem succTimes_cons (t : Int) (ts : List Int) (r : RLResult) (rs : List RLResult) :
    succTimes (t :: ts) (r :: rs) =
      if r.isOk then t :: succTimes ts rs else succTimes ts rs := by
  simp only [succTimes, List.zip_cons_cons, List.filter_cons]
  split
  · simp_all
  · simp_all

theorem succTimes_append (l1 l2 : List Int) (r1 r2 : List RLResult)
    (h : l1.length = r1.length) :
    succTimes (l1 ++ l2) (r1 ++ r2) = succTimes l1 r1 ++ succTimes l2 r2 := by
  unfold succTimes
  rw [List.zip_append h, List.filter_append, List.map_append]

theorem succTimes_sublist : ∀ (ts : List Int) (rs : List RLResult),
    List.Sublist (succTimes ts rs) ts := by
  intro ts
  induction ts with
  | nil => intro rs; simp [succTimes]
  | cons t rest ih =>
    intro rs
    cases rs with
    | nil => simp [succTimes]
    | cons r rs' =>
      rw [succTimes_cons]
      split
      · exact List.Sublist.cons₂ t (ih rs')
      · exact List.Sublist.cons t (ih rs')

theorem checkDailyReset_stamps (cfg : RLCfg) (now : Int) (st : RLState) :
    (RateLimiter.checkDailyReset cfg now st).requestTimestamps = st.requestTimestamps := by
  unfold RateLimiter.checkDailyReset
  split <;> rfl

theorem checkDailyReset_daily_le (cfg : RLCfg) (now : Int) (st : RLState) :
    (RateLimiter.checkDailyReset cfg now st).dailyCount ≤ st.dailyCount := by
  unfold RateLimiter.checkDailyReset
  split <;> simp

theorem filter_window_compose (H : List Int) (t1 t2 : Int) (h : t1 ≤ t2) :
    (H.filter (fun x => t1 - 60000 < x)).filter (fun x => t2 - 60000 < x)
      = H.filter (fun x => t2 - 60000 < x) := by
  rw [List.filter_filter]
  apply List.filter_congr
  intro x _
  by_cases h2 : t2 - 60000 < x
  · have h1 : t1 - 60000 < x := by omega
    simp [h1, h2]
  · simp [h2]

theorem attempt_fail (cfg : RLCfg) (t : Int) (st : RLState)
    (h : cfg.maxRequestsPerMinute ≤
          (RateLimiter.cleanOldTimestamps t (RateLimiter.checkDailyReset cfg t st)).requestTimestamps.length
        ∨ cfg.maxRequestsPerDay ≤
          (RateLimiter.cleanOldTimestamps t (RateLimiter.checkDailyReset cfg t st)).dailyCount) :
    RateLimiter.attempt cfg t st =
      ((RateLimiter.getRetryAfterMs cfg t
          (RateLimiter.cleanOldTimestamps t (RateLimiter.checkDailyReset cfg t st))).2,
        .rateLimited (RateLimiter.getRetryAfterMs cfg t
          (RateLimiter.cleanOldTimestamps t (RateLimiter.checkDailyReset cfg t st))).1) := by
  unfold RateLimiter.attempt
  simp [h]

theorem attempt_succeed (cfg : RLCfg) (t : Int) (st : RLState)
    (h : ¬ (cfg.maxRequestsPerMinute ≤
          (RateLimiter.cleanOldTimestamps t (RateLimiter.checkDailyReset cfg t st)).requestTimestamps.length
        ∨ cfg.maxRequestsPerDay ≤
          (RateLimiter.cleanOldTimestamps t (RateLimiter.checkDailyReset cfg t st)).dailyCount)) :
    RateLimiter.attempt cfg t st =
      ({ RateLimiter.cleanOldTimestamps t (RateLimiter.checkDailyReset cfg t st) with
          requestTimestamps :=
            (RateLimiter.cleanOldTimestamps t (RateLimiter.checkDailyReset cfg t st)).requestTimestamps ++ [t]
          dailyCount :=
            (RateLimiter.cleanOldTimestamps t (RateLimiter.checkDailyReset cfg t st)).dailyCount + 1 },
        .ok) := by
  unfold RateLimiter.attempt
  simp [h]

theorem cleanOld_stamps_of (now : Int) (st : RLState) (H : List Int) (tprev : Int)
    (hle : tprev ≤ now)
    (hst : st.requestTimestamps = H.filter (fun x => tprev - 60000 < x)) :
    (RateLimiter.cleanOldTimestamps now st).requestTimestamps =
      H.filter (fun x => now - 60000 < x) := by
  unfold RateLimiter.cleanOldTimestamps
  simp only [hst]
  exact filter_window_compose H tprev now hle

/-- Stamps invariant: after a sorted run, the retained window is exactly
the successes (old history `H` plus those of the run) within 60 s of the
last processed time. -/
theorem rlRun_stamps (cfg : RLCfg) :
    ∀ (ts : List Int) (st : RLState) (H : List Int) (tprev : Int),
      List.Chain' (· ≤ ·) (tprev :: ts) →
      st.requestTimestamps = H.filter (fun x => tprev - 60000 < x) →
      (RateLimiter.run cfg st ts).1.requestTimestamps =
        (H ++ succTimes ts (RateLimiter.run cfg st ts).2).filter
          (fun x => ts.getLastD tprev - 60000 < x) := by
  intro ts
  induction ts with
  | nil =>
    intro st H tprev _ hst
    simp [rlRun_nil, succTimes_nil, hst]
  | cons t rest ih =>
    intro st H tprev hchain hst
    have htle : tprev ≤ t := (List.chain'_cons.mp hchain).1
    have hchain' : List.Chain' (· ≤ ·) (t :: rest) := (List.chain'_cons.mp hchain).2
    have hst1 : (RateLimiter.cleanOldTimestamps t
        (RateLimiter.checkDailyReset cfg t st)).requestTimestamps =
        H.filter (fun x => t - 60000 < x) := by
      apply cleanOld_stamps_of t _ H tprev htle
      rw [checkDailyReset_stamps]
      exact hst
    rw [rlRun_cons]
    by_cases hlim : cfg.maxRequestsPerMinute ≤
          (RateLimiter.cleanOldTimestamps t (RateLimiter.checkDailyReset cfg t st)).requestTimestamps.length
        ∨ cfg.maxRequestsPerDay ≤
          (RateLimiter.cleanOldTimestamps t (RateLimiter.checkDailyReset cfg t st)).dailyCount
    · -- rate limited: no stamp recorded
      rw [attempt_fail cfg t st hlim]
      have hst2 : (RateLimiter.getRetryAfterMs cfg t
          (RateLimiter.cleanOldTimestamps t (RateLimiter.checkDailyReset cfg t st))).2.requestTimestamps =
          H.filter (fun x => t - 60000 < x) := by
        unfold RateLimiter.getRetryAfterMs
        have hclean : (RateLimiter.cleanOldTimestamps t
            (RateLimiter.cleanOldTimestamps t (RateLimiter.checkDailyReset cfg t st))).requestTimestamps =
            H.filter (fun x => t - 60000 < x) := by
          apply cleanOld_stamps_of t _ H t le_rfl hst1
        split
        · exact hclean
        · split
          · exact hclean
          · exact hclean
      have hrec := ih (RateLimiter.getRetryAfterMs cfg t
          (RateLimiter.cleanOldTimestamps t (RateLimiter.checkDailyReset cfg t st))).2
        H t hchain' hst2
      simp [hrec, succTimes_cons, RLResult.isOk, List.getLastD_cons, List.getLast?_cons]
    · -- success: stamp appended
      rw [attempt_succeed cfg t st hlim]
      have hstS : ({ RateLimiter.cleanOldTimestamps t (RateLimiter.checkDailyReset cfg t st) with
          requestTimestamps :=
            (RateLimiter.cleanOldTimestamps t (RateLimiter.checkDailyReset cfg t st)).requestTimestamps ++ [t]
          dailyCount :=
            (RateLimiter.cleanOldTimestamps t (RateLimiter.checkDailyReset cfg t st)).dailyCount + 1 }
          : RLState).requestTimestamps =
          (H ++ [t]).filter (fun x => t - 60000 < x) := by
        simp only [List.filter_append]
        rw [hst1]
        simp
      have hrec := ih _ (H ++ [t]) t hchain' hstS
      simp [hrec, succTimes_cons, RLResult.isOk, List.getLastD_cons, List.getLast?_cons,
        List.append_assoc]

theorem filter_idem (p : Int → Bool) (l : List Int) : (l.filter p).filter p = l.filter p := by
  rw [List.filter_filter]
  apply List.filter_congr
  intro x _
  cases hp : p x <;> simp [hp]

theorem chain'_headD_self {l : List Int} (h : List.Chain' (· ≤ ·) l) (d : Int) :
    List.Chain' (· ≤ ·) (l.headD d :: l) := by
  cases l with
  | nil => simp
  | cons a t => exact List.chain'_cons.mpr ⟨le_refl a, h⟩

theorem sorted_decomp_facts (pre : List Int) (t : Int) (post : List Int)
    (hsort : List.Chain' (· ≤ ·) (pre ++ t :: post)) :
    List.Chain' (· ≤ ·) pre ∧ (∀ x ∈ pre, x ≤ t) := by
  have hp := List.chain'_iff_pairwise.mp hsort
  rw [List.pairwise_append] at hp
  exact ⟨List.chain'_iff_pairwise.mpr hp.1, fun x hx => hp.2.2 x hx t (by simp)⟩

/-- The cleaned window at a call site is exactly the successes of the
prefix run that are within 60 s of the call time. -/
theorem stamps_before_call (cfg : RLCfg) (pre : List Int) (t : Int) (post : List Int)
    (d0 : Nat) (r0 : Int)
    (hsort : List.Chain' (· ≤ ·) (pre ++ t :: post)) :
    (RateLimiter.cleanOldTimestamps t (RateLimiter.checkDailyReset cfg t
        (RateLimiter.run cfg ⟨[], d0, r0⟩ pre).1)).requestTimestamps =
      (succTimes pre (RateLimiter.run cfg ⟨[], d0, r0⟩ pre).2).filter
        (fun x => t - 60000 < x) := by
  obtain ⟨hcpre, hle⟩ := sorted_decomp_facts pre t post hsort
  have hinv := rlRun_stamps cfg pre ⟨[], d0, r0⟩ [] (pre.headD t)
    (chain'_headD_self hcpre t) (by simp)
  have hlastle : pre.getLastD (pre.headD t) ≤ t := by
    cases pre with
    | nil => simp
    | cons p0 pr =>
      rcases List.mem_cons.mp (List.getLastD_mem_cons (p0 :: pr) ((p0 :: pr).headD t)) with h | h
      · rw [h]
        exact hle p0 (by simp)
      · exact hle _ h
  apply cleanOld_stamps_of t _ _ (pre.getLastD (pre.headD t)) hlastle
  rw [checkDailyReset_stamps]
  simpa using hinv

theorem checkDailyReset_future (cfg : RLCfg) (now : Int) (st : RLState)
    (hnext : ∀ x : Int, x < cfg.nextDay x) :
    now < (RateLimiter.checkDailyReset cfg now st).dailyResetTime := by
  unfold RateLimiter.checkDailyReset
  split
  · simpa using hnext now
  · rename_i h
    omega

/-- Any failed attempt carries a positive retry-after. -/
theorem rl_fail_retry_pos (cfg : RLCfg) (t : Int) (st : RLState) (r : Int)
    (hnext : ∀ x : Int, x < cfg.nextDay x)
    (h : (RateLimiter.attempt cfg t st).2 = .rateLimited r) : 0 < r := by
  by_cases hlim : cfg.maxRequestsPerMinute ≤
        (RateLimiter.cleanOldTimestamps t (RateLimiter.checkDailyReset cfg t st)).requestTimestamps.length
      ∨ cfg.maxRequestsPerDay ≤
        (RateLimiter.cleanOldTimestamps t (RateLimiter.checkDailyReset cfg t st)).dailyCount
  · rw [attempt_fail cfg t st hlim] at h
    rcases RLResult.rateLimited.inj h with rfl
    unfold RateLimiter.getRetryAfterMs
    split
    · have : (1000 : Int) ≤ max ((RateLimiter.cleanOldTimestamps t (RateLimiter.cleanOldTimestamps t
          (RateLimiter.checkDailyReset cfg t st))).requestTimestamps.headD 0 + 60000 - t) 1000 :=
        le_max_right _ _
      simp only
      omega
    · split
      · simp only
        have hfut := checkDailyReset_future cfg t st hnext
        have hsame : (RateLimiter.cleanOldTimestamps t (RateLimiter.cleanOldTimestamps t
            (RateLimiter.checkDailyReset cfg t st))).dailyResetTime =
            (RateLimiter.checkDailyReset cfg t st).dailyResetTime := rfl
        omega
      · rename_i h1 h2
        exfalso
        have hlen : (RateLimiter.cleanOldTimestamps t (RateLimiter.cleanOldTimestamps t
            (RateLimiter.checkDailyReset cfg t st))).requestTimestamps =
            (RateLimiter.cleanOldTimestamps t
              (RateLimiter.checkDailyReset cfg t st)).requestTimestamps := by
          unfold RateLimiter.cleanOldTimestamps
          exact filter_idem _ _
        have hday : (RateLimiter.cleanOldTimestamps t (RateLimiter.cleanOldTimestamps t
            (RateLimiter.checkDailyReset cfg t st))).dailyCount =
            (RateLimiter.cleanOldTimestamps t
              (RateLimiter.checkDailyReset cfg t st)).dailyCount := rfl
        rw [hlen] at h1
        rw [hday] at h2
        rcases hlim with hl | hl
        · exact h1 hl
        · exact h2 hl
  · rw [attempt_succeed cfg t st hlim] at h
    cases h

/-- A call made while the cleaned window already holds the per-minute
quota fails with the clamped time-to-oldest-expiry retry-after. -/
theorem minute_limit_blocks (cfg : RLCfg) (pre : List Int) (t : Int) (post : List Int)
    (d0 : Nat) (r0 : Int)
    (hsort : List.Chain' (· ≤ ·) (pre ++ t :: post))
    (hW : cfg.maxRequestsPerMinute ≤
      ((succTimes pre (RateLimiter.run cfg ⟨[], d0, r0⟩ pre).2).filter
        (fun x => t - 60000 < x)).length) :
    (RateLimiter.attempt cfg t (RateLimiter.run cfg ⟨[], d0, r0⟩ pre).1).2 =
      .rateLimited (max (((succTimes pre (RateLimiter.run cfg ⟨[], d0, r0⟩ pre).2).filter
        (fun x => t - 60000 < x)).headD 0 + 60000 - t) 1000) := by
  have hstb := stamps_before_call cfg pre t post d0 r0 hsort
  rw [attempt_fail _ _ _ (Or.inl (by rw [hstb]; exact hW))]
  unfold RateLimiter.getRetryAfterMs
  have hclean2 : (RateLimiter.cleanOldTimestamps t (RateLimiter.cleanOldTimestamps t
      (RateLimiter.checkDailyReset cfg t (RateLimiter.run cfg ⟨[], d0, r0⟩ pre).1))).requestTimestamps =
      (succTimes pre (RateLimiter.run cfg ⟨[], d0, r0⟩ pre).2).filter
        (fun x => t - 60000 < x) := by
    unfold RateLimiter.cleanOldTimestamps at hstb ⊢
    rw [hstb]
    exact filter_idem _ _
  rw [if_pos (by rw [hclean2]; exact hW)]
  rw [hclean2]

/-- Sliding-window success bound for a sorted run from a fresh limiter. -/
theorem rl_sliding_window_bound (cfg : RLCfg) (d0 : Nat) (r0 : Int) :
    ∀ ts : List Int, List.Chain' (· ≤ ·) ts →
      ∀ a : Int,
        ((succTimes ts (RateLimiter.run cfg ⟨[], d0, r0⟩ ts).2).filter
          (fun x => decide (a < x) && decide (x ≤ a + 60000))).length ≤
          cfg.maxRequestsPerMinute := by
  intro ts
  induction ts using List.reverseRecOn with
  | nil =>
    intro _ a
    simp [rlRun_nil, succTimes_nil]
  | append_singleton ts' t ih =>
    intro hsort a
    obtain ⟨hsort', hle⟩ := sorted_decomp_facts ts' t [] hsort
    rw [rlRun_append]
    rw [succTimes_append ts' [t] _ _ (rlRun_length cfg ts' ⟨[], d0, r0⟩).symm]
    rw [List.filter_append, List.length_append]
    have hih := ih hsort' a
    rw [rlRun_cons, rlRun_nil] at *
    by_cases hok : (RateLimiter.attempt cfg t (RateLimiter.run cfg ⟨[], d0, r0⟩ ts').1).2.isOk
    · -- the last call succeeded
      have hsucc1 : succTimes [t]
          [(RateLimiter.attempt cfg t (RateLimiter.run cfg ⟨[], d0, r0⟩ ts').1).2] = [t] := by
        rw [show ([t] : List Int) = t :: [] from rfl, succTimes_cons, if_pos hok, succTimes_nil]
      rw [hsucc1]
      by_cases hwin : a < t ∧ t ≤ a + 60000
      · -- capping success inside the window
        have hfail : ¬ (cfg.maxRequestsPerMinute ≤
              (RateLimiter.cleanOldTimestamps t (RateLimiter.checkDailyReset cfg t
                (RateLimiter.run cfg ⟨[], d0, r0⟩ ts').1)).requestTimestamps.length
            ∨ cfg.maxRequestsPerDay ≤
              (RateLimiter.cleanOldTimestamps t (RateLimiter.checkDailyReset cfg t
                (RateLimiter.run cfg ⟨[], d0, r0⟩ ts').1)).dailyCount) := by
          intro hcond
          rw [attempt_fail _ _ _ hcond] at hok
          simp [RLResult.isOk] at hok
        have hWlt : ((succTimes ts' (RateLimiter.run cfg ⟨[], d0, r0⟩ ts').2).filter
            (fun x => t - 60000 < x)).length < cfg.maxRequestsPerMinute := by
          have h1 := (not_or.mp hfail).1
          rw [stamps_before_call cfg ts' t [] d0 r0 hsort] at h1
          omega
        have hmono : ((succTimes ts' (RateLimiter.run cfg ⟨[], d0, r0⟩ ts').2).filter
            (fun x => decide (a < x) && decide (x ≤ a + 60000))).length ≤
            ((succTimes ts' (RateLimiter.run cfg ⟨[], d0, r0⟩ ts').2).filter
              (fun x => t - 60000 < x)).length := by
          rw [← List.countP_eq_length_filter, ← List.countP_eq_length_filter]
          apply List.countP_mono_left
          intro x _ hx
          simp only [Bool.and_eq_true, decide_eq_true_eq] at hx
          simp only [decide_eq_true_eq]
          omega
        have hone : (([t] : List Int).filter
            (fun x => decide (a < x) && decide (x ≤ a + 60000))).length ≤ 1 := by
          simp [List.filter]
          split <;> simp
        omega
      · -- capping success outside the window
        have hzero : (([t] : List Int).filter
            (fun x => decide (a < x) && decide (x ≤ a + 60000))).length = 0 := by
          simp only [List.filter, List.length_nil]
          rw [show (decide (a < t) && decide (t ≤ a + 60000)) = false by
            rcases not_and_or.mp hwin with h | h <;> simp [h]]
          rfl
        omega
    · -- the last call failed: nothing added
      have hsucc0 : succTimes [t]
          [(RateLimiter.attempt cfg t (RateLimiter.run cfg ⟨[], d0, r0⟩ ts').1).2] = [] := by
        rw [show ([t] : List Int) = t :: [] from rfl, succTimes_cons, if_neg hok, succTimes_nil]
      rw [hsucc0]
      simpa using hih

/-- C4 counterexample: the retry-after attached to the rate-limit failure
is clamped below at 1000 ms, so it is not equal to the time until the
oldest per-minute slot expires when that time is shorter (500 ms here,
with a 1-per-minute limit, a success at t=0 and a call at t=59500). -/
theorem rateLimiter_retry_not_exact_counterexample :
    (RateLimiter.run ⟨1, 100, fun t => t + 86400000⟩ ⟨[], 0, 500000000⟩ [0, 59500]).2 =
      [.ok, .rateLimited 1000]
    ∧ (0 : Int) + 60000 - 59500 = 500
    ∧ (1000 : Int) ≠ 500 := by
  refine ⟨by decide, by norm_num, by norm_num⟩

/-- C4 (amended): over any sorted sequence of `attempt()` calls from a
fresh limiter, (i) no more than the configured per-minute count succeed
within any 60-second sliding interval; (ii) every rate-limited failure
carries a positive retry-after; (iii) a call finding the per-minute
window already full fails with retry-after equal to the time until the
oldest slot in the window expires, clamped below at 1000 ms (the daily
branch yields the time until the daily reset). -/
theorem rateLimiter_bounded_and_retry_after (cfg : RLCfg) (ts : List Int) (d0 : Nat) (r0 : Int)
    (hsort : List.Chain' (· ≤ ·) ts)
    (hN : 1 ≤ cfg.maxRequestsPerMinute)
    (hnext : ∀ x : Int, x < cfg.nextDay x) :
    (∀ a : Int, ((succTimes ts (RateLimiter.run cfg ⟨[], d0, r0⟩ ts).2).filter
        (fun x => decide (a < x) && decide (x ≤ a + 60000))).length ≤ cfg.maxRequestsPerMinute)
    ∧ (∀ (pre : List Int) (t : Int) (post : List Int) (r : Int), ts = pre ++ t :: post →
        (RateLimiter.attempt cfg t (RateLimiter.run cfg ⟨[], d0, r0⟩ pre).1).2 = .rateLimited r →
        0 < r)
    ∧ (∀ (pre : List Int) (t : Int) (post : List Int), ts = pre ++ t :: post →
        cfg.maxRequestsPerMinute ≤
          ((succTimes pre (RateLimiter.run cfg ⟨[], d0, r0⟩ pre).2).filter
            (fun x => t - 60000 < x)).length →
        (RateLimiter.attempt cfg t (RateLimiter.run cfg ⟨[], d0, r0⟩ pre).1).2 =
          .rateLimited (max (((succTimes pre (RateLimiter.run cfg ⟨[], d0, r0⟩ pre).2).filter
            (fun x => t - 60000 < x)).headD 0 + 60000 - t) 1000)) := by
  refine ⟨rl_sliding_window_bound cfg d0 r0 ts hsort, ?_, ?_⟩
  · intro pre t post r hdec hfail
    exact rl_fail_retry_pos cfg t _ r hnext hfail
  · intro pre t post hdec hW
    exact minute_limit_blocks cfg pre t post d0 r0 (hdec ▸ hsort) hW

theorem rateLimiter_bounded_and_retry_after_witness :
    (RateLimiter.attempt ⟨1, 100, fun t => t + 86400000⟩ 30000
        (RateLimiter.run ⟨1, 100, fun t => t + 86400000⟩ ⟨[], 0, 500000000⟩ [0]).1).2 =
      .rateLimited 30000 := by
  have h := (rateLimiter_bounded_and_retry_after ⟨1, 100, fun t => t + 86400000⟩
      [0, 30000] 0 500000000
      (List.chain'_cons.mpr ⟨by norm_num, List.chain'_singleton _⟩)
      (by norm_num) (fun x => by show x < x + 86400000; omega)).2.2 [0] 30000 [] rfl (by decide)
  rw [h]
  decide
